import Mathlib

/-!
Shallow embedding of `torchts/nn/models/dcrnn.py` (the DCRNN
encoder/decoder state machine and its training-step contract).

Modelling conventions:
* A per-time-step tensor is an element of an abstract type `T`; the
  multi-layer hidden state `(layers, batch, hidden_state_size)` is a
  `List T` of per-layer slices, indexed by layer number exactly as the
  source indexes `hidden_state[layer_num]`.
* The external `DCGRU` recurrent cell (from `torchts.nn.graph`, consumed
  as a black-box layer) is a function `T → T → T` taking the layer input
  and that layer's hidden-state slice to the next hidden-state slice.
* The float scalars used by the curriculum-sampling draw and threshold
  are an abstract linearly ordered type `R` (instantiated with `ℝ` for
  the analytic facts about the threshold formula and with `ℚ` for
  executable witnesses).
* Fallible Python operations (tensor indexing out of range, subscripting
  `None`, `torch.stack` on an empty list, arithmetic on `None`) are
  modelled with `Option`: `none` is a raised exception.
* `np.random.uniform(0, 1)` is modelled by an ambient stream
  `rand : Nat → R` giving the draw made at decoder step `t`; the source
  makes exactly one draw per step and only when
  `self.training and self.use_curriculum_learning` holds.
-/

/-- Python kwargs consumed by `Seq2SeqAttrs.__init__` (and the extra keys
read by `Encoder.__init__`, `Decoder.__init__`, `DCRNN.__init__`), with the
defaults from the source's `model_kwargs.get` calls. All integer-valued
options go through `int(...)` in the source, hence `Int` fields. -/
structure ModelKwargs where
  maxDiffusionStep : Int := 2
  clDecaySteps : Int := 1000
  filterType : String := "laplacian"
  numNodes : Int := 1
  numRnnLayers : Int := 1
  rnnUnits : Int
  useGcForRu : Bool := true
  inputDim : Int := 1
  seqLenOpt : Int
  outputDim : Int := 1
  horizonOpt : Int := 1
  useCurriculumLearningOpt : Bool := false

/-- The attributes written by `Seq2SeqAttrs.__init__`
(`src/torchts/nn/models/dcrnn.py` lines 10-20). -/
structure Seq2SeqAttrs where
  maxDiffusionStep : Int
  clDecaySteps : Int
  filterType : String
  numNodes : Int
  numRnnLayers : Int
  rnnUnits : Int
  useGcForRu : Bool
  hiddenStateSize : Int

/-- `Seq2SeqAttrs.__init__`: copies each option and sets
`self.hidden_state_size = self.num_nodes * self.rnn_units`. -/
def Seq2SeqAttrs.init (kw : ModelKwargs) : Seq2SeqAttrs :=
  { maxDiffusionStep := kw.maxDiffusionStep
    clDecaySteps := kw.clDecaySteps
    filterType := kw.filterType
    numNodes := kw.numNodes
    numRnnLayers := kw.numRnnLayers
    rnnUnits := kw.rnnUnits
    useGcForRu := kw.useGcForRu
    hiddenStateSize := kw.numNodes * kw.rnnUnits }

/-- `torch.stack(list)`: raises `RuntimeError` on an empty tensor list,
otherwise (in this abstraction, where the list of per-layer or per-step
tensors is already the stacked object) returns the list itself. -/
def torchStack {T : Type} (l : List T) : Option (List T) :=
  if l.isEmpty then none else some l

/-- The per-layer loop shared verbatim by `Encoder.forward` and
`Decoder.forward`:

    for layer_num, dcgru_layer in enumerate(self.dcgru_layers):
        next_hidden_state = dcgru_layer(output, hidden_state[layer_num])
        hidden_states.append(next_hidden_state)
        output = next_hidden_state

Returns the top layer's output and the accumulated list of per-layer next
hidden states. Indexing `hidden_state[layer_num]` past the end of the
hidden state raises (`none`); extra hidden-state slices beyond the layer
count are ignored, as in the source. -/
def stackPass {T : Type} : List (T → T → T) → List T → T → Option (T × List T)
  | [], _, output => some (output, [])
  | _ :: _, [], _ => none
  | layer :: rest, h :: hs, output =>
    let nextHiddenState := layer output h
    match stackPass rest hs nextHiddenState with
    | none => none
    | some (out, tail) => some (out, nextHiddenState :: tail)

/-- The `Encoder` module (`dcrnn.py` lines 23-59): `num_rnn_layers` DCGRU
cells plus the configuration needed by `forward`. `zeroLike inputs` models
one per-layer slice of `torch.zeros(shape).type_as(inputs)`, i.e. the
all-zero `(batch, hidden_state_size)` tensor whose numeric type matches
`inputs`. -/
structure Encoder (T : Type) where
  numRnnLayers : Nat
  seqLen : Nat
  dcgruLayers : List (T → T → T)
  zeroLike : T → T

/-- The hidden state built by `Encoder.forward` when `hidden_state is
None`: `torch.zeros((num_rnn_layers, batch_size, hidden_state_size))`
type-matched to the inputs, viewed as its list of per-layer slices. -/
def Encoder.zeroHiddenState {T : Type} (e : Encoder T) (inputs : T) : List T :=
  List.replicate e.numRnnLayers (e.zeroLike inputs)

/-- `Encoder.forward` (`dcrnn.py` lines 44-59): zero-initialises the
hidden state when absent, runs the layer stack, and returns the top
output with `torch.stack(hidden_states)`. -/
def Encoder.forward {T : Type} (e : Encoder T) (inputs : T)
    (hiddenState : Option (List T)) : Option (T × List T) :=
  let h := match hiddenState with
    | none => e.zeroHiddenState inputs
    | some hs => hs
  match stackPass e.dcgruLayers h inputs with
  | none => none
  | some (output, hiddenStates) =>
    match torchStack hiddenStates with
    | none => none
    | some stacked => some (output, stacked)

/-- The `Decoder` module (`dcrnn.py` lines 62-98): DCGRU cells plus the
projection. `projectionLayer` models the composite
`view(-1, rnn_units)` / `nn.Linear(rnn_units, output_dim)` /
`view(-1, num_nodes * output_dim)` applied to the top layer's output. -/
structure Decoder (T : Type) where
  horizon : Nat
  dcgruLayers : List (T → T → T)
  projectionLayer : T → T

/-- `Decoder.forward` (`dcrnn.py` lines 85-98): the layer stack, then the
projection of the top output, returned with `torch.stack(hidden_states)`. -/
def Decoder.forward {T : Type} (d : Decoder T) (inputs : T)
    (hiddenState : List T) : Option (T × List T) :=
  match stackPass d.dcgruLayers hiddenState inputs with
  | none => none
  | some (output, hiddenStates) =>
    match torchStack hiddenStates with
    | none => none
    | some stacked => some (d.projectionLayer output, stacked)

/-- The `DCRNN` orchestrator (`dcrnn.py` lines 101-189). `goSymbol ehs`
models `torch.zeros((batch_size, num_nodes * output_dim))` type-matched
to the encoder hidden state (`batch_size = encoder_hidden_state.size(1)`).
`samplingThreshold` is `self._compute_sampling_threshold` viewed over the
abstract scalar type `R`; over `ℝ` it is `DCRNN.computeSamplingThreshold`
below. -/
structure DCRNN (T R : Type) where
  encoderModel : Encoder T
  decoderModel : Decoder T
  useCurriculumLearning : Bool
  samplingThreshold : R → R
  goSymbol : List T → T

/-- `DCRNN._compute_sampling_threshold` (`dcrnn.py` lines 111-114):
`cl_decay_steps / (cl_decay_steps + np.exp(batches_seen / cl_decay_steps))`
with the float arithmetic idealised over `ℝ`; `d` is the integer
`self.cl_decay_steps`. -/
noncomputable def DCRNN.computeSamplingThreshold (d : Int) (batchesSeen : ℝ) : ℝ :=
  (d : ℝ) / ((d : ℝ) + Real.exp (batchesSeen / (d : ℝ)))

/-- The loop of `DCRNN.encoder` (`dcrnn.py` lines 116-124), peeled one
step at a time: at step `t` it indexes `inputs[t]` (raising past the end)
and feeds the previous hidden state (Python `None` before the first step)
to `Encoder.forward`, keeping only the hidden state. The outer `Option`
is raised exceptions; the inner one is the Python value (`None` when the
loop body never ran). -/
def DCRNN.encoderLoop {T : Type} (e : Encoder T) (inputs : List T) :
    Nat → Nat → Option (List T) → Option (Option (List T))
  | 0, _, h => some h
  | n + 1, t, h =>
    match inputs[t]? with
    | none => none
    | some x =>
      match e.forward x h with
      | none => none
      | some (_, h') => DCRNN.encoderLoop e inputs n (t + 1) (some h')

/-- `DCRNN.encoder`: run the encoder loop for `seq_len` steps starting
from `encoder_hidden_state = None`. -/
def DCRNN.encoder {T R : Type} (m : DCRNN T R) (inputs : List T) :
    Option (Option (List T)) :=
  DCRNN.encoderLoop m.encoderModel inputs m.encoderModel.seqLen 0 none

/-- One iteration of the `DCRNN.decoder` loop, recorded for the proofs:
the input and hidden state the `Decoder` was called with, the projected
output it returned (the value appended to `outputs`), and the hidden
state it returned. -/
structure DecStep (T : Type) where
  input : T
  hidden : List T
  output : T
  nextHidden : List T
  deriving DecidableEq

/-- The decoder input carried into step `t + 1`, read off from lines
138-146 of the source: the decoder's own output at step `t`, unless the
curriculum branch runs and its draw falls below the threshold, in which
case it is `labels[t]`; `none` is a raised exception (`batches_seen` or
`labels` being Python `None`, or `labels[t]` out of range). -/
def curriculumNextInput {T R : Type} [LinearOrder R] (m : DCRNN T R) (training : Bool)
    (labels : Option (List T)) (batchesSeen : Option R) (rand : Nat → R) (t : Nat)
    (decoderOutput : T) : Option T :=
  if training && m.useCurriculumLearning then
    match batchesSeen with
    | none => none
    | some b =>
      if rand t < m.samplingThreshold b then
        match labels with
        | none => none
        | some ls => ls[t]?
      else some decoderOutput
  else some decoderOutput

/-- The loop of `DCRNN.decoder` (`dcrnn.py` lines 135-147), with the fuel
counting the remaining steps and `t` the current step index:

    for t in range(self.decoder_model.horizon):
        decoder_output, decoder_hidden_state = self.decoder_model(
            decoder_input, decoder_hidden_state)
        decoder_input = decoder_output
        outputs.append(decoder_output)
        if self.training and self.use_curriculum_learning:
            c = np.random.uniform(0, 1)
            if c < self._compute_sampling_threshold(batches_seen):
                decoder_input = labels[t]

`batches_seen = None` makes the threshold expression raise (`None`
divided by an int), and `labels = None` makes `labels[t]` raise; both are
`none`. The returned list records every executed iteration. -/
def DCRNN.decoderLoop {T R : Type} [LinearOrder R] (m : DCRNN T R) (training : Bool)
    (labels : Option (List T)) (batchesSeen : Option R) (rand : Nat → R) :
    Nat → Nat → T → List T → Option (List (DecStep T))
  | 0, _, _, _ => some []
  | n + 1, t, decoderInput, decoderHiddenState =>
    match m.decoderModel.forward decoderInput decoderHiddenState with
    | none => none
    | some (decoderOutput, hidden') =>
      match curriculumNextInput m training labels batchesSeen rand t decoderOutput with
      | none => none
      | some nextInput =>
        Option.map
          (fun tail =>
            ({ input := decoderInput, hidden := decoderHiddenState,
               output := decoderOutput, nextHidden := hidden' } : DecStep T) :: tail)
          (DCRNN.decoderLoop m training labels batchesSeen rand n (t + 1) nextInput hidden')

/-- The full iteration trace of `DCRNN.decoder`: `horizon` steps starting
from the zero go symbol and the encoder's final hidden state. -/
def DCRNN.decoderTrace {T R : Type} [LinearOrder R] (m : DCRNN T R) (training : Bool)
    (encoderHiddenState : List T) (labels : Option (List T))
    (batchesSeen : Option R) (rand : Nat → R) : Option (List (DecStep T)) :=
  DCRNN.decoderLoop m training labels batchesSeen rand
    m.decoderModel.horizon 0 (m.goSymbol encoderHiddenState) encoderHiddenState

/-- `DCRNN.decoder` (`dcrnn.py` lines 126-149): the collected per-step
outputs, stacked (`torch.stack(outputs)` raises on `horizon = 0`). -/
def DCRNN.decoder {T R : Type} [LinearOrder R] (m : DCRNN T R) (training : Bool)
    (encoderHiddenState : List T) (labels : Option (List T))
    (batchesSeen : Option R) (rand : Nat → R) : Option (List T) :=
  match DCRNN.decoderTrace m training encoderHiddenState labels batchesSeen rand with
  | none => none
  | some trace => torchStack (trace.map DecStep.output)

/-- `DCRNN.forward` (`dcrnn.py` lines 151-155): encoder then decoder. A
`seq_len` of 0 leaves `encoder_hidden_state` as Python `None`, on which
the decoder's `encoder_hidden_state.size(1)` raises. -/
def DCRNN.forward {T R : Type} [LinearOrder R] (m : DCRNN T R) (training : Bool)
    (inputs : List T) (labels : Option (List T)) (batchesSeen : Option R)
    (rand : Nat → R) : Option (List T) :=
  match m.encoder inputs with
  | none => none
  | some none => none
  | some (some encoderHiddenState) =>
    m.decoder training encoderHiddenState labels batchesSeen rand

/-- Modelled from the spec: `masked_mae_loss` lives in
`torchts/nn/loss.py`, which is not part of the given sources; the spec
defines it as "mean absolute error over positions where `true != 0`, else
0 contribution; returns 0 if all positions are masked". This helper
collects the absolute errors at the unmasked positions. -/
def maskedAbsErrors : List ℚ → List ℚ → List ℚ
  | t :: ts, p :: ps =>
    if t = 0 then maskedAbsErrors ts ps else |t - p| :: maskedAbsErrors ts ps
  | _, _ => []

/-- Modelled from the spec: `masked_mae_loss(true, pred)` is the mean of
the absolute errors at the positions where the true value is nonzero,
guarded to return 0 when every position is masked. -/
def masked_mae_loss (yTrue yPred : List ℚ) : ℚ :=
  let errs := maskedAbsErrors yTrue yPred
  if errs.length = 0 then 0 else errs.sum / (errs.length : ℚ)

/-- `masked_mae_loss` applied to a stacked `(horizon, ...)` tensor pair is
the elementwise masked mean over all positions: flatten then apply. -/
def tensorMaskedMAE (yTrue yPred : List (List ℚ)) : ℚ :=
  masked_mae_loss yTrue.flatten yPred.flatten

/-- Observable side effects of `DCRNN.training_step` on the model
parameters' gradient state. -/
inductive TrainEffect where
  | clipGradNorm (maxNorm : ℚ)
  deriving DecidableEq

/-- `DCRNN.training_step` (`dcrnn.py` lines 157-182) over step tensors
`T := List ℚ` so the loss can be computed: the permute/view reshapes of
the raw 4-D batch (lines 159-172) are the black boxes `reshapeX` /
`reshapeY` producing per-step tensors; `self(x, y, batch_idx)` is
`DCRNN.forward` in training mode with `labels = y` and
`batches_seen = batch_idx`; both target and prediction go through the
external scaler's `inverse_transform` before the masked loss; and
`torch.nn.utils.clip_grad_norm_(self.parameters(), 5)` is recorded as the
emitted `TrainEffect` before the loss is returned. -/
def DCRNN.trainingStep {BX BY : Type} (m : DCRNN (List ℚ) ℚ)
    (scalerInverseTransform : List (List ℚ) → List (List ℚ))
    (reshapeX : BX → List (List ℚ)) (reshapeY : BY → List (List ℚ))
    (rand : Nat → ℚ) (batch : BX × BY) (batchIdx : Nat) :
    Option (ℚ × List TrainEffect) :=
  let x := reshapeX batch.1
  let y := reshapeY batch.2
  match m.forward true x (some y) (some (batchIdx : ℚ)) rand with
  | none => none
  | some pred =>
    let y' := scalerInverseTransform y
    let pred' := scalerInverseTransform pred
    some (tensorMaskedMAE y' pred', [TrainEffect.clipGradNorm 5])

/-- `Encoder.__init__` reads `input_dim` and `seq_len` but delegates every
shared attribute, including `hidden_state_size`, to
`Seq2SeqAttrs.__init__` unchanged. -/
def Encoder.initAttrs (kw : ModelKwargs) : Seq2SeqAttrs :=
  Seq2SeqAttrs.init kw

/-- `Decoder.__init__` reads `output_dim` and `horizon` but delegates
every shared attribute to `Seq2SeqAttrs.__init__` unchanged. -/
def Decoder.initAttrs (kw : ModelKwargs) : Seq2SeqAttrs :=
  Seq2SeqAttrs.init kw

/-- `DCRNN.__init__` re-reads `cl_decay_steps` (to the same value) and
`use_curriculum_learning` after `Seq2SeqAttrs.__init__`, touching nothing
else. -/
def DCRNN.initAttrs (kw : ModelKwargs) : Seq2SeqAttrs :=
  { Seq2SeqAttrs.init kw with clDecaySteps := kw.clDecaySteps }

/-- Concrete DCGRU stand-in for executable witnesses. -/
def egCell : Int → Int → Int := fun x h => x + h

/-- Concrete encoder instance for executable witnesses. -/
def egEncoder : Encoder Int :=
  { numRnnLayers := 1, seqLen := 2, dcgruLayers := [egCell], zeroLike := fun _ => 0 }

/-- Concrete decoder instance for executable witnesses. -/
def egDecoder : Decoder Int :=
  { horizon := 2, dcgruLayers := [egCell], projectionLayer := fun x => x + 1 }

/-- Concrete DCRNN instance (curriculum learning off) for witnesses. -/
def egDCRNN : DCRNN Int ℚ :=
  { encoderModel := egEncoder, decoderModel := egDecoder,
    useCurriculumLearning := false, samplingThreshold := fun q => q,
    goSymbol := fun _ => 0 }

/-- Concrete DCRNN instance (curriculum learning on) for witnesses. -/
def egDCRNNCL : DCRNN Int ℚ :=
  { encoderModel := egEncoder, decoderModel := egDecoder,
    useCurriculumLearning := true, samplingThreshold := fun _ => 1,
    goSymbol := fun _ => 0 }

/-- Concrete rational-tensor encoder for the training-step witness. -/
def egEncoderQ : Encoder (List ℚ) :=
  { numRnnLayers := 1, seqLen := 1, dcgruLayers := [fun x _ => x],
    zeroLike := fun _ => [0] }

/-- Concrete rational-tensor decoder for the training-step witness. -/
def egDecoderQ : Decoder (List ℚ) :=
  { horizon := 1, dcgruLayers := [fun x _ => x], projectionLayer := fun x => x }

/-- Concrete rational-tensor DCRNN for the training-step witness. -/
def egDCRNNQ : DCRNN (List ℚ) ℚ :=
  { encoderModel := egEncoderQ, decoderModel := egDecoderQ,
    useCurriculumLearning := false, samplingThreshold := fun q => q,
    goSymbol := fun _ => [0] }

/-! Helper lemmas about the decoder and encoder loops. -/

/-- A successful decoder loop records exactly one step per unit of fuel. -/
theorem decoderLoop_length {T R : Type} [LinearOrder R] (m : DCRNN T R) (training : Bool)
    (labels : Option (List T)) (bs : Option R) (rand : Nat → R) :
    ∀ n t inp h tr, DCRNN.decoderLoop m training labels bs rand n t inp h = some tr →
      tr.length = n := by
  intro n
  induction n with
  | zero =>
    intro t inp h tr htr
    simp only [DCRNN.decoderLoop, Option.some.injEq] at htr
    simp [← htr]
  | succ n ih =>
    intro t inp h tr htr
    simp only [DCRNN.decoderLoop] at htr
    split at htr
    · exact absurd htr (by simp)
    · split at htr
      · exact absurd htr (by simp)
      · rw [Option.map_eq_some'] at htr
        obtain ⟨tail, htail, rfl⟩ := htr
        simp [ih _ _ _ _ htail]

/-- The first recorded step of a successful decoder loop was fed the
starting decoder input and hidden state. -/
theorem decoderLoop_first {T R : Type} [LinearOrder R] (m : DCRNN T R) (training : Bool)
    (labels : Option (List T)) (bs : Option R) (rand : Nat → R)
    (n t : Nat) (inp : T) (h : List T) (tr : List (DecStep T)) (s : DecStep T)
    (htr : DCRNN.decoderLoop m training labels bs rand n t inp h = some tr)
    (hs : tr[0]? = some s) : s.input = inp ∧ s.hidden = h := by
  cases n with
  | zero =>
    simp only [DCRNN.decoderLoop, Option.some.injEq] at htr
    rw [← htr] at hs
    simp at hs
  | succ n =>
    simp only [DCRNN.decoderLoop] at htr
    split at htr
    · exact absurd htr (by simp)
    · rename_i out h' hf
      split at htr
      · exact absurd htr (by simp)
      · rename_i nextInput hnext
        rw [Option.map_eq_some'] at htr
        obtain ⟨tail, htail, rfl⟩ := htr
        simp only [List.getElem?_cons_zero, Option.some.injEq] at hs
        subst hs
        exact ⟨rfl, rfl⟩

/-- Every recorded step of the decoder loop is a genuine `Decoder.forward`
evaluation: its output and next hidden state are exactly what the decoder
model returns on its input and hidden state. -/
theorem decoderLoop_step_eq {T R : Type} [LinearOrder R] (m : DCRNN T R) (training : Bool)
    (labels : Option (List T)) (bs : Option R) (rand : Nat → R) :
    ∀ n t inp h tr, DCRNN.decoderLoop m training labels bs rand n t inp h = some tr →
      ∀ (i : Nat) (s : DecStep T), tr[i]? = some s →
        m.decoderModel.forward s.input s.hidden = some (s.output, s.nextHidden) := by
  intro n
  induction n with
  | zero =>
    intro t inp h tr htr i s hs
    simp only [DCRNN.decoderLoop, Option.some.injEq] at htr
    rw [← htr] at hs
    simp at hs
  | succ n ih =>
    intro t inp h tr htr i s hs
    simp only [DCRNN.decoderLoop] at htr
    split at htr
    · exact absurd htr (by simp)
    · rename_i out h' hf
      split at htr
      · exact absurd htr (by simp)
      · rename_i nextInput hnext
        rw [Option.map_eq_some'] at htr
        obtain ⟨tail, htail, rfl⟩ := htr
        cases i with
        | zero =>
          simp only [List.getElem?_cons_zero, Option.some.injEq] at hs
          subst hs
          exact hf
        | succ i =>
          simp only [List.getElem?_cons_succ] at hs
          exact ih _ _ _ _ htail i s hs

/-- With the curriculum branch disabled, consecutive recorded steps chain
the decoder's own output into the next step's input. -/
theorem decoderLoop_chain {T R : Type} [LinearOrder R] (m : DCRNN T R) (training : Bool)
    (labels : Option (List T)) (bs : Option R) (rand : Nat → R)
    (hcl : (training && m.useCurriculumLearning) = false) :
    ∀ n t inp h tr, DCRNN.decoderLoop m training labels bs rand n t inp h = some tr →
      ∀ (i : Nat) (a b : DecStep T), tr[i]? = some a → tr[i + 1]? = some b →
        b.input = a.output := by
  intro n
  induction n with
  | zero =>
    intro t inp h tr htr i a b ha hb
    simp only [DCRNN.decoderLoop, Option.some.injEq] at htr
    rw [← htr] at ha
    simp at ha
  | succ n ih =>
    intro t inp h tr htr i a b ha hb
    simp only [DCRNN.decoderLoop] at htr
    split at htr
    · exact absurd htr (by simp)
    · rename_i out h' hf
      split at htr
      · exact absurd htr (by simp)
      · rename_i nextInput hnext
        rw [Option.map_eq_some'] at htr
        obtain ⟨tail, htail, rfl⟩ := htr
        simp [curriculumNextInput, hcl] at hnext
        subst hnext
        cases i with
        | zero =>
          simp only [List.getElem?_cons_zero, Option.some.injEq] at ha
          subst ha
          simp only [List.getElem?_cons_succ] at hb
          have := decoderLoop_first m training labels bs rand n (t + 1) out h' tail b htail hb
          exact this.1
        | succ i =>
          simp only [List.getElem?_cons_succ] at ha hb
          exact ih _ _ _ _ htail i a b ha hb

/-- Out of training mode the decoder loop never consults `labels` or
`batches_seen`. -/
theorem decoderLoop_eval_irrelevant {T R : Type} [LinearOrder R] (m : DCRNN T R)
    (labels labels' : Option (List T)) (bs bs' : Option R) (rand : Nat → R) :
    ∀ n t inp h, DCRNN.decoderLoop m false labels bs rand n t inp h =
      DCRNN.decoderLoop m false labels' bs' rand n t inp h := by
  intro n
  induction n with
  | zero => intro t inp h; rfl
  | succ n ih =>
    intro t inp h
    simp only [DCRNN.decoderLoop]
    cases m.decoderModel.forward inp h with
    | none => rfl
    | some p =>
      obtain ⟨out, h'⟩ := p
      simp only [curriculumNextInput, Bool.false_and, Bool.false_eq_true, if_false]
      rw [ih]

/-- With the curriculum branch live, a Python-`None` `batches_seen` makes
any decoder step raise. -/
theorem decoderLoop_bs_none {T R : Type} [LinearOrder R] (m : DCRNN T R) (training : Bool)
    (labels : Option (List T)) (rand : Nat → R) (n t : Nat) (inp : T) (h : List T)
    (hcl : (training && m.useCurriculumLearning) = true) :
    DCRNN.decoderLoop m training labels none rand (n + 1) t inp h = none := by
  simp only [DCRNN.decoderLoop]
  cases m.decoderModel.forward inp h with
  | none => rfl
  | some p =>
    obtain ⟨out, h'⟩ := p
    simp [curriculumNextInput, hcl]

/-- With the curriculum branch live and `labels` Python-`None`, any draw
below the threshold within the remaining fuel makes the loop raise. -/
theorem decoderLoop_labels_none {T R : Type} [LinearOrder R] (m : DCRNN T R) (training : Bool)
    (b : R) (rand : Nat → R)
    (hcl : (training && m.useCurriculumLearning) = true) :
    ∀ n t inp h, (∃ s, s < n ∧ rand (t + s) < m.samplingThreshold b) →
      DCRNN.decoderLoop m training none (some b) rand n t inp h = none := by
  intro n
  induction n with
  | zero =>
    intro t inp h hex
    obtain ⟨s, hs, _⟩ := hex
    omega
  | succ n ih =>
    intro t inp h hex
    simp only [DCRNN.decoderLoop]
    cases m.decoderModel.forward inp h with
    | none => rfl
    | some p =>
      obtain ⟨out, h'⟩ := p
      by_cases hr : rand t < m.samplingThreshold b
      · simp [curriculumNextInput, hcl, hr]
      · have hex' : ∃ s, s < n ∧ rand (t + 1 + s) < m.samplingThreshold b := by
          obtain ⟨s, hs, hlt⟩ := hex
          cases s with
          | zero => exact absurd (by simpa using hlt) hr
          | succ s =>
            refine ⟨s, by omega, ?_⟩
            have harg : t + 1 + s = t + (s + 1) := by omega
            rw [harg]
            exact hlt
        simp [curriculumNextInput, hcl, hr, ih _ _ _ hex']

/-- The encoder loop reads only the input entries at the step indices it
visits. -/
theorem encoderLoop_agree {T : Type} (e : Encoder T) (inputs inputs' : List T) :
    ∀ n t h, (∀ s, t ≤ s → s < t + n → inputs[s]? = inputs'[s]?) →
      DCRNN.encoderLoop e inputs n t h = DCRNN.encoderLoop e inputs' n t h := by
  intro n
  induction n with
  | zero => intro t h _; rfl
  | succ n ih =>
    intro t h hagree
    have ht := hagree t (le_refl t) (by omega)
    simp only [DCRNN.encoderLoop, ← ht]
    cases hx : inputs[t]? with
    | none => simp [hx]
    | some x =>
      simp only [hx]
      cases hf : e.forward x h with
      | none => simp [hf]
      | some p =>
        obtain ⟨o, h'⟩ := p
        simp only [hf]
        exact ih (t + 1) (some h') (fun s hs1 hs2 => hagree s (by omega) (by omega))

/-! Claim theorems. -/

/-- C1: with `use_curriculum_learning = False`, the decoder input at step
`t + 1` equals the decoder's own output at step `t`, for every pair of
consecutive steps of a completed `DCRNN.decoder` run, regardless of the
training/eval flag and regardless of the `labels` and `batches_seen`
provided. -/
theorem dcrnn_decoder_input_follows_output {T R : Type} [LinearOrder R]
    (m : DCRNN T R) (training : Bool) (ehs : List T) (labels : Option (List T))
    (bs : Option R) (rand : Nat → R) (tr : List (DecStep T))
    (hcl : m.useCurriculumLearning = false)
    (htr : DCRNN.decoderTrace m training ehs labels bs rand = some tr)
    (t : Nat) (a b : DecStep T) (ha : tr[t]? = some a) (hb : tr[t + 1]? = some b) :
    b.input = a.output := by
  have htr' : DCRNN.decoderLoop m training labels bs rand m.decoderModel.horizon 0
      (m.goSymbol ehs) ehs = some tr := htr
  exact decoderLoop_chain m training labels bs rand (by simp [hcl]) _ _ _ _ _ htr' t a b ha hb

/-- C2: `Encoder.forward` with `hidden_state = None` returns exactly the
same (top output, new hidden state) pair as `Encoder.forward` with an
explicit all-zero hidden state of shape
`(num_rnn_layers, batch, hidden_state_size)` whose numeric type matches
the input. -/
theorem encoder_forward_none_eq_zero_hidden {T : Type} (e : Encoder T) (inputs : T) :
    e.forward inputs none = e.forward inputs (some (e.zeroHiddenState inputs)) := rfl

/-- C3: `DCRNN.encoder` consumes exactly the first `seq_len` input steps
in order — its result is unchanged by modifying any other entry — and
every completed `DCRNN.decoder` run returns an output sequence of length
exactly `horizon`. -/
theorem dcrnn_seq_len_horizon_contract {T R : Type} [LinearOrder R]
    (m : DCRNN T R) (training : Bool) (ehs : List T) (labels : Option (List T))
    (bs : Option R) (rand : Nat → R) (outs : List T) (inputs inputs' : List T)
    (houts : DCRNN.decoder m training ehs labels bs rand = some outs)
    (hagree : ∀ t, t < m.encoderModel.seqLen → inputs[t]? = inputs'[t]?) :
    outs.length = m.decoderModel.horizon
    ∧ DCRNN.encoder m inputs = DCRNN.encoder m inputs' := by
  constructor
  · simp only [DCRNN.decoder] at houts
    split at houts
    · exact absurd houts (by simp)
    · rename_i trace heq
      simp only [torchStack] at houts
      split at houts
      · exact absurd houts (by simp)
      · rw [Option.some.injEq] at houts
        subst houts
        simp only [DCRNN.decoderTrace] at heq
        rw [List.length_map]
        exact decoderLoop_length m training labels bs rand _ _ _ _ _ heq
  · simp only [DCRNN.encoder]
    exact encoderLoop_agree m.encoderModel inputs inputs' m.encoderModel.seqLen 0 none
      (fun s _ h2 => hagree s (by omega))

/-- C4: every constructor (Encoder, Decoder and DCRNN all delegate to
`Seq2SeqAttrs.__init__`, and none of them touches the attribute
afterwards) establishes `hidden_state_size = num_nodes * rnn_units`; as
the embedding of the module is pure — no operation reassigns any
attribute — the equality holds for the model's whole lifetime. -/
theorem hidden_state_size_invariant (kw : ModelKwargs) :
    (Seq2SeqAttrs.init kw).hiddenStateSize
        = (Seq2SeqAttrs.init kw).numNodes * (Seq2SeqAttrs.init kw).rnnUnits
    ∧ (Encoder.initAttrs kw).hiddenStateSize
        = (Encoder.initAttrs kw).numNodes * (Encoder.initAttrs kw).rnnUnits
    ∧ (Decoder.initAttrs kw).hiddenStateSize
        = (Decoder.initAttrs kw).numNodes * (Decoder.initAttrs kw).rnnUnits
    ∧ (DCRNN.initAttrs kw).hiddenStateSize
        = (DCRNN.initAttrs kw).numNodes * (DCRNN.initAttrs kw).rnnUnits :=
  ⟨rfl, rfl, rfl, rfl⟩

/-- C8: at inference (training flag off), `DCRNN.forward` ignores
`labels` and never uses `batches_seen`: two runs differing only in those
two arguments — `None` versus any provided values — produce identical
output sequences. -/
theorem dcrnn_forward_eval_ignores_labels {T R : Type} [LinearOrder R]
    (m : DCRNN T R) (inputs : List T) (labels labels' : Option (List T))
    (bs bs' : Option R) (rand : Nat → R) :
    DCRNN.forward m false inputs labels bs rand
      = DCRNN.forward m false inputs labels' bs' rand := by
  simp only [DCRNN.forward]
  cases henc : DCRNN.encoder m inputs with
  | none => simp
  | some o =>
    cases o with
    | none => simp
    | some ehs =>
      simp only [DCRNN.decoder, DCRNN.decoderTrace]
      rw [decoderLoop_eval_irrelevant m labels labels' bs bs' rand]

/-- C9: a curriculum-learning substitution at step `t` never changes the
collected output at step `t`: every recorded output is exactly the
Decoder's own projected output for that step's input and hidden state
(the output is appended before any teacher-forcing override, which only
affects the input of step `t + 1`), and the returned output sequence is
exactly the stacked per-step outputs of the trace. -/
theorem dcrnn_decoder_output_unaffected_by_teacher_forcing {T R : Type} [LinearOrder R]
    (m : DCRNN T R) (training : Bool) (ehs : List T) (labels : Option (List T))
    (bs : Option R) (rand : Nat → R) (tr : List (DecStep T))
    (htr : DCRNN.decoderTrace m training ehs labels bs rand = some tr)
    (t : Nat) (s : DecStep T) (hs : tr[t]? = some s) :
    m.decoderModel.forward s.input s.hidden = some (s.output, s.nextHidden)
    ∧ DCRNN.decoder m training ehs labels bs rand
        = torchStack (tr.map DecStep.output) := by
  have htr' : DCRNN.decoderLoop m training labels bs rand m.decoderModel.horizon 0
      (m.goSymbol ehs) ehs = some tr := htr
  constructor
  · exact decoderLoop_step_eq m training labels bs rand _ _ _ _ _ htr' t s hs
  · simp only [DCRNN.decoder, htr]

/-- C10: in training mode with `use_curriculum_learning = True`, the
decoder requires both `labels` and `batches_seen` to be provided: with
`batches_seen = None` the threshold computation raises at the first step,
and with `labels = None` any draw below the threshold raises at
`labels[t]`; the call errors instead of falling back to the model's own
prediction. -/
theorem dcrnn_decoder_curriculum_requires_args {T R : Type} [LinearOrder R]
    (m : DCRNN T R) (ehs : List T) (labels : Option (List T)) (bs : Option R)
    (rand : Nat → R)
    (hcl : m.useCurriculumLearning = true) (hh : 1 ≤ m.decoderModel.horizon)
    (hcase : bs = none
      ∨ (labels = none ∧ ∃ b, bs = some b
          ∧ ∃ t, t < m.decoderModel.horizon ∧ rand t < m.samplingThreshold b)) :
    DCRNN.decoder m true ehs labels bs rand = none := by
  have hloop : DCRNN.decoderLoop m true labels bs rand m.decoderModel.horizon 0
      (m.goSymbol ehs) ehs = none := by
    rcases hcase with hbs | ⟨hlab, b, hbs, t, ht, hr⟩
    · subst hbs
      obtain ⟨k, hk⟩ : ∃ k, m.decoderModel.horizon = k + 1 :=
        ⟨m.decoderModel.horizon - 1, by omega⟩
      rw [hk]
      exact decoderLoop_bs_none m true labels rand k 0 _ _ (by simp [hcl])
    · subst hlab
      subst hbs
      exact decoderLoop_labels_none m true b rand (by simp [hcl]) _ 0 _ _
        ⟨t, ht, by simpa using hr⟩
  simp only [DCRNN.decoder, DCRNN.decoderTrace, hloop]

/-- C5: for every fixed `cl_decay_steps ≥ 1` the sampling threshold
`d / (d + exp(batches_seen / d))` is strictly monotonically decreasing in
`batches_seen`, tends to 0 as `batches_seen → ∞`, and at
`batches_seen = 0` lies strictly below 1 while tending to 1 as
`cl_decay_steps` grows without bound. -/
theorem dcrnn_sampling_threshold_decay (d : Int) (hd : 1 ≤ d) :
    StrictAnti (DCRNN.computeSamplingThreshold d)
    ∧ Filter.Tendsto (DCRNN.computeSamplingThreshold d) Filter.atTop (nhds 0)
    ∧ DCRNN.computeSamplingThreshold d 0 < 1
    ∧ Filter.Tendsto (fun n : Int => DCRNN.computeSamplingThreshold n 0)
        Filter.atTop (nhds 1) := by
  have hd1 : (1 : ℝ) ≤ (d : ℝ) := by exact_mod_cast hd
  have hd0 : (0 : ℝ) < (d : ℝ) := by linarith
  refine ⟨?_, ?_, ?_, ?_⟩
  · intro b₁ b₂ hb
    unfold DCRNN.computeSamplingThreshold
    have hdiv : b₁ / (d : ℝ) < b₂ / (d : ℝ) := by gcongr
    have hexp : Real.exp (b₁ / (d : ℝ)) < Real.exp (b₂ / (d : ℝ)) :=
      Real.exp_lt_exp.mpr hdiv
    have hpos : (0 : ℝ) < (d : ℝ) + Real.exp (b₁ / (d : ℝ)) := by positivity
    exact div_lt_div_of_pos_left hd0 hpos (by linarith)
  · have hdenom : Filter.Tendsto (fun b : ℝ => (d : ℝ) + Real.exp (b / (d : ℝ)))
        Filter.atTop Filter.atTop := by
      apply Filter.tendsto_atTop_add_const_left
      exact Real.tendsto_exp_atTop.comp (Filter.Tendsto.atTop_div_const hd0 Filter.tendsto_id)
    exact Filter.Tendsto.div_atTop tendsto_const_nhds hdenom
  · unfold DCRNN.computeSamplingThreshold
    rw [zero_div, Real.exp_zero, div_lt_one (by linarith)]
    linarith
  · have hratio : Filter.Tendsto (fun e : ℝ => e / (e + 1)) Filter.atTop (nhds 1) := by
      have h1 : Filter.Tendsto (fun e : ℝ => e + 1) Filter.atTop Filter.atTop :=
        Filter.tendsto_atTop_add_const_right _ 1 Filter.tendsto_id
      have h2 : Filter.Tendsto (fun e : ℝ => (e + 1)⁻¹) Filter.atTop (nhds 0) :=
        h1.inv_tendsto_atTop
      have h3 : Filter.Tendsto (fun e : ℝ => 1 - (e + 1)⁻¹) Filter.atTop (nhds 1) := by
        simpa using tendsto_const_nhds.sub h2
      refine h3.congr' ?_
      filter_upwards [Filter.eventually_gt_atTop (0 : ℝ)] with e he
      have hne : e + 1 ≠ 0 := by positivity
      field_simp
    have hcast : Filter.Tendsto (fun n : Int => ((n : ℝ))) Filter.atTop Filter.atTop :=
      tendsto_intCast_atTop_atTop
    refine (hratio.comp hcast).congr ?_
    intro n
    simp [Function.comp, DCRNN.computeSamplingThreshold, Real.exp_zero]

/-- On equal arguments every unmasked absolute error is zero, so the sum
of recorded errors vanishes. -/
theorem maskedAbsErrors_self (y : List ℚ) : (maskedAbsErrors y y).sum = 0 := by
  induction y with
  | nil => simp [maskedAbsErrors]
  | cons a ys ih =>
    by_cases ha : a = 0
    · simp [maskedAbsErrors, ha, ih]
    · simp [maskedAbsErrors, ha, ih]

/-- An all-zero truth masks every position, so no error is recorded. -/
theorem maskedAbsErrors_all_zero :
    ∀ (z p : List ℚ), (∀ a ∈ z, a = 0) → maskedAbsErrors z p = [] := by
  intro z
  induction z with
  | nil => intro p _; cases p <;> rfl
  | cons a zs ih =>
    intro p hz
    cases p with
    | nil => rfl
    | cons q ps =>
      have ha : a = 0 := hz a (by simp)
      simp [maskedAbsErrors, ha, ih ps (fun x hx => hz x (by simp [hx]))]

/-- Corrupting the predictions at the masked positions (true value zero)
by an arbitrary function leaves the recorded errors unchanged. -/
theorem maskedAbsErrors_masked_irrelevant (g : ℚ → ℚ) :
    ∀ (yt yp : List ℚ),
      maskedAbsErrors yt ((yt.zip yp).map (fun q => if q.1 = 0 then g q.2 else q.2))
        = maskedAbsErrors yt yp := by
  intro yt
  induction yt with
  | nil => intro yp; rfl
  | cons a ts ih =>
    intro yp
    cases yp with
    | nil => rfl
    | cons p ps =>
      by_cases ha : a = 0
      · simpa [maskedAbsErrors, ha] using ih ps
      · simpa [maskedAbsErrors, ha] using ih ps

/-- C6: `masked_mae_loss` is the mean absolute error over the positions
with nonzero true value only: it vanishes on equal arguments, an
all-masked truth yields 0 instead of a division-by-zero failure,
corrupting predictions at masked positions by any function leaves the
value unchanged, and the spec's worked example
`masked_mae_loss([0,2,4], [100,2,5]) = 1/2` holds. -/
theorem masked_mae_loss_spec (y z p yt yp : List ℚ) (g : ℚ → ℚ)
    (hnz : ∃ a ∈ y, a ≠ 0) (hz : ∀ a ∈ z, a = 0) :
    masked_mae_loss y y = 0
    ∧ masked_mae_loss z p = 0
    ∧ masked_mae_loss yt ((yt.zip yp).map (fun q => if q.1 = 0 then g q.2 else q.2))
        = masked_mae_loss yt yp
    ∧ masked_mae_loss [0, 2, 4] [100, 2, 5] = 1 / 2 := by
  have habs : |(4 : ℚ) - 5| = 1 := by
    rw [show (4 : ℚ) - 5 = -1 by norm_num]
    simp
  refine ⟨?_, ?_, ?_, by norm_num [masked_mae_loss, maskedAbsErrors, habs]⟩
  · simp only [masked_mae_loss]
    split
    · rfl
    · rw [maskedAbsErrors_self y, zero_div]
  · simp [masked_mae_loss, maskedAbsErrors_all_zero z p hz]
  · simp only [masked_mae_loss, maskedAbsErrors_masked_irrelevant g yt yp]

/-- C7: every successful `training_step` run performs the
`clip_grad_norm_(self.parameters(), 5)` side effect as part of the step
itself — the clipping belongs to the step's own contract, not to the
external caller. -/
theorem dcrnn_training_step_clips_gradient {BX BY : Type} (m : DCRNN (List ℚ) ℚ)
    (scalerInverseTransform : List (List ℚ) → List (List ℚ))
    (reshapeX : BX → List (List ℚ)) (reshapeY : BY → List (List ℚ))
    (rand : Nat → ℚ) (batch : BX × BY) (batchIdx : Nat) (loss : ℚ)
    (effs : List TrainEffect)
    (hrun : DCRNN.trainingStep m scalerInverseTransform reshapeX reshapeY rand batch
        batchIdx = some (loss, effs)) :
    effs = [TrainEffect.clipGradNorm 5] := by
  simp only [DCRNN.trainingStep] at hrun
  split at hrun
  · exact absurd hrun (by simp)
  · rw [Option.some.injEq, Prod.mk.injEq] at hrun
    exact hrun.2.symm

/-! Witnesses: each claim theorem with hypotheses applied at a concrete
instance, the hypotheses discharged by evaluation. -/

/-- Witness for C1: a concrete curriculum-free run whose step-1 input is
its step-0 output. -/
theorem dcrnn_decoder_input_follows_output_witness :
    (⟨11, [10], 22, [21]⟩ : DecStep Int).input
      = (⟨0, [10], 11, [10]⟩ : DecStep Int).output :=
  dcrnn_decoder_input_follows_output egDCRNN false [10] none none (fun _ => 0)
    [⟨0, [10], 11, [10]⟩, ⟨11, [10], 22, [21]⟩] (by decide) (by decide) 0
    ⟨0, [10], 11, [10]⟩ ⟨11, [10], 22, [21]⟩ (by decide) (by decide)

/-- Witness for C3: a concrete run with two decoder outputs for
`horizon = 2`, and two inputs agreeing on the first `seq_len = 2` steps
but differing at step 2. -/
theorem dcrnn_seq_len_horizon_contract_witness :
    ([11, 22] : List Int).length = egDCRNN.decoderModel.horizon
    ∧ DCRNN.encoder egDCRNN [5, 6, 7] = DCRNN.encoder egDCRNN [5, 6, 8] :=
  dcrnn_seq_len_horizon_contract egDCRNN false [10] none none (fun _ => 0) [11, 22]
    [5, 6, 7] [5, 6, 8] (by decide) (by decide)

/-- Witness for C5: the threshold properties at `cl_decay_steps = 1`. -/
theorem dcrnn_sampling_threshold_decay_witness :
    StrictAnti (DCRNN.computeSamplingThreshold 1)
    ∧ Filter.Tendsto (DCRNN.computeSamplingThreshold 1) Filter.atTop (nhds 0)
    ∧ DCRNN.computeSamplingThreshold 1 0 < 1
    ∧ Filter.Tendsto (fun n : Int => DCRNN.computeSamplingThreshold n 0)
        Filter.atTop (nhds 1) :=
  dcrnn_sampling_threshold_decay 1 (by decide)

/-- Witness for C6: concrete masked-loss inputs, with a truth vector
holding a nonzero entry and an all-zero truth vector. -/
theorem masked_mae_loss_spec_witness :
    masked_mae_loss [0, 3] [0, 3] = 0
    ∧ masked_mae_loss [0, 0] [7, 9] = 0
    ∧ masked_mae_loss [0, 2] (([0, 2].zip [5, 2]).map
        (fun q => if q.1 = 0 then q.2 + 100 else q.2)) = masked_mae_loss [0, 2] [5, 2]
    ∧ masked_mae_loss [0, 2, 4] [100, 2, 5] = 1 / 2 :=
  masked_mae_loss_spec [0, 3] [0, 0] [7, 9] [0, 2] [5, 2] (fun q => q + 100)
    ⟨3, by decide, by decide⟩ (by decide)

/-- Witness for C7: a concrete successful training step whose effect list
is exactly the norm-5 gradient clip. -/
theorem dcrnn_training_step_clips_gradient_witness :
    DCRNN.trainingStep egDCRNNQ id id id (fun _ => 0) ([[1]], [[0]]) 0
      = some (0, [TrainEffect.clipGradNorm 5])
    ∧ [TrainEffect.clipGradNorm 5] = [TrainEffect.clipGradNorm 5] :=
  ⟨by decide, dcrnn_training_step_clips_gradient egDCRNNQ id id id (fun _ => 0)
    ([[1]], [[0]]) 0 0 [TrainEffect.clipGradNorm 5] (by decide)⟩

/-- Witness for C9: a concrete curriculum run in which teacher forcing
replaces the step-1 input by `labels[0] = 100`, while the recorded step-0
output is still the decoder's own projection. -/
theorem dcrnn_decoder_output_unaffected_by_teacher_forcing_witness :
    Decoder.forward egDCRNNCL.decoderModel (0 : Int) [10] = some (11, [10])
    ∧ DCRNN.decoder egDCRNNCL true [10] (some [100, 200]) (some 0) (fun _ => 0)
        = torchStack (([⟨0, [10], 11, [10]⟩, ⟨100, [10], 111, [110]⟩] :
            List (DecStep Int)).map DecStep.output) :=
  dcrnn_decoder_output_unaffected_by_teacher_forcing egDCRNNCL true [10]
    (some [100, 200]) (some 0) (fun _ => 0)
    [⟨0, [10], 11, [10]⟩, ⟨100, [10], 111, [110]⟩] (by decide) 0
    ⟨0, [10], 11, [10]⟩ (by decide)

/-- Witness for C10: with curriculum learning on, `labels = None` and a
first draw below the threshold make the concrete decoder call raise. -/
theorem dcrnn_decoder_curriculum_requires_args_witness :
    DCRNN.decoder egDCRNNCL true [10] none (some 0) (fun _ => 0) = none :=
  dcrnn_decoder_curriculum_requires_args egDCRNNCL [10] none (some 0) (fun _ => 0)
    (by decide) (by decide)
    (Or.inr ⟨rfl, 0, rfl, 0, by decide, by decide⟩)
